import Mathlib

set_option maxRecDepth 10000

/-
Verification of the capture-decoding pipeline of the Tado hardware-teardown
repository.  The Python sources are shallowly embedded: byte buffers become
`List Nat` (each element a byte value), the index-advancing loops become
recursions whose fuel argument counts the bytes (resp. transactions) that
remain — the loops advance their index by at least one per iteration, so the
fuel never runs out before the natural exit condition of the loop fires, and the
embedded functions compute exactly what the Python loops compute.
-/

/-! ## Varint decoder (`read_varint`, saleae_parser_v2.py lines 33-55, and
`SaleaeParser.decode_variable_length_int`, parse_saleae.py lines 85-105 —
the two loops are textually identical). -/

/-- The `while` loop of `read_varint`: `l` is the buffer suffix starting at
`offset + bytes_consumed`; `value`, `shift`, `consumed` are the loop
variables.  Each step reads one byte, ors its low 7 bits (shifted) into
`value`, and stops when the high bit of the byte is clear or the buffer ends. -/
def readVarintAux : List Nat → Nat → Nat → Nat → Nat × Nat
  | [], value, _, consumed => (value, consumed)
  | b :: rest, value, shift, consumed =>
    let value' := value ||| ((b &&& 127) <<< shift)
    if b &&& 128 = 0 then (value', consumed + 1)
    else readVarintAux rest value' (shift + 7) (consumed + 1)

/-- Function `read_varint(data, offset)` from saleae_parser_v2.py: decode one
variable-length integer; returns `(value, bytes_consumed)`. -/
def read_varint (data : List Nat) (offset : Nat) : Nat × Nat :=
  readVarintAux (data.drop offset) 0 0 0

/-- Method `SaleaeParser.decode_variable_length_int` from parse_saleae.py: the same
loop as `read_varint` (`self` plays no role). -/
def decode_variable_length_int (data : List Nat) (offset : Nat) : Nat × Nat :=
  readVarintAux (data.drop offset) 0 0 0

/-- Modelled from the spec (§4.1, §8): encode an unsigned integer as 7-bit
little-endian groups, the high bit set on every group except the final byte.
The source repository has no encoder; this definition follows the wording of the spec and is only used to state the round-trip property. -/
def encodeVarint (v : Nat) : List Nat :=
  if v < 128 then [v] else (v % 128 + 128) :: encodeVarint (v / 128)
termination_by v
decreasing_by exact Nat.div_lt_self (by omega) (by omega)

/-! Byte-level facts about the bit operations, all decided over the finite
range of byte values. -/

theorem byte_and_127 : ∀ x, x < 256 → x &&& 127 = x % 128 := by decide

theorem byte_and_128_lo : ∀ x, x < 128 → x &&& 128 = 0 := by decide

theorem byte_and_128_hi : ∀ x, x < 128 → (x + 128) &&& 128 = 128 := by decide

theorem byte_add_128_and_127 : ∀ x, x < 128 → (x + 128) &&& 127 = x := by decide

/-- Oring a value below `2 ^ k` with a `k`-shifted value is addition. -/
theorem lor_shiftLeft_add {a : Nat} (b k : Nat) (h : a < 2 ^ k) :
    a ||| b <<< k = a + b * 2 ^ k := by
  rw [Nat.shiftLeft_eq, Nat.lor_comm, mul_comm b (2 ^ k),
    ← Nat.mul_add_lt_is_or h b]
  exact Nat.add_comm _ _

/-- Decoding an encoded varint from any loop state with disjoint accumulator
recovers the value additively and consumes exactly the encoding. -/
theorem readVarintAux_encode (v : Nat) : ∀ (rest : List Nat) (acc shift consumed : Nat),
    acc < 2 ^ shift →
    readVarintAux (encodeVarint v ++ rest) acc shift consumed
      = (acc + v * 2 ^ shift, consumed + (encodeVarint v).length) := by
  induction v using Nat.strong_induction_on with
  | _ v ih =>
    intro rest acc shift consumed hacc
    by_cases h : v < 128
    · rw [encodeVarint, if_pos h]
      show readVarintAux (v :: rest) acc shift consumed = _
      rw [readVarintAux]
      simp only [byte_and_127 v (by omega), Nat.mod_eq_of_lt h,
        byte_and_128_lo v h, if_pos rfl]
      rw [lor_shiftLeft_add v shift hacc]
      rfl
    · rw [encodeVarint, if_neg h]
      have hm : v % 128 < 128 := Nat.mod_lt v (by omega)
      show readVarintAux ((v % 128 + 128) :: (encodeVarint (v / 128) ++ rest))
            acc shift consumed = _
      rw [readVarintAux]
      simp only [byte_add_128_and_127 _ hm, byte_and_128_hi _ hm]
      rw [if_neg (by omega)]
      rw [lor_shiftLeft_add (v % 128) shift hacc]
      have hlt : acc + v % 128 * 2 ^ shift < 2 ^ (shift + 7) := by
        have h1 : acc + v % 128 * 2 ^ shift < (v % 128 + 1) * 2 ^ shift := by
          have : (v % 128 + 1) * 2 ^ shift = v % 128 * 2 ^ shift + 2 ^ shift := by ring
          omega
        have h2 : (v % 128 + 1) * 2 ^ shift ≤ 128 * 2 ^ shift :=
          Nat.mul_le_mul_right _ (by omega)
        have h3 : (2 : Nat) ^ (shift + 7) = 128 * 2 ^ shift := by
          rw [pow_add]; ring
        omega
      rw [ih (v / 128) (Nat.div_lt_self (by omega) (by omega)) rest _ (shift + 7)
        (consumed + 1) hlt]
      have hv := Nat.div_add_mod v 128
      have hfst : acc + v % 128 * 2 ^ shift + v / 128 * 2 ^ (shift + 7)
          = acc + v * 2 ^ shift := by
        conv_rhs => rw [← hv]
        rw [pow_add]; ring
      rw [hfst]
      simp only [Prod.mk.injEq, List.length_cons, true_and]
      omega

/-- C7: For every unsigned integer v, encoding v with the documented 7-bit
little-endian continuation scheme (the high bit set on every group except the final
byte, low-order group first) and then decoding at the start offset of the encoding
recovers exactly v, with bytes_consumed equal to the encoded length.  Both
copies of the decoder (`read_varint` and `decode_variable_length_int`) are
covered. -/
theorem claim7_varint_round_trip (v : Nat) (data : List Nat) (offset : Nat)
    (rest : List Nat) (h : data.drop offset = encodeVarint v ++ rest) :
    read_varint data offset = (v, (encodeVarint v).length)
      ∧ decode_variable_length_int data offset = (v, (encodeVarint v).length) := by
  have key : readVarintAux (data.drop offset) 0 0 0 = (v, (encodeVarint v).length) := by
    rw [h, readVarintAux_encode v rest 0 0 0 (by norm_num)]
    norm_num
  exact ⟨key, key⟩

/-- Witness for C7 at v = 300: the encoding is `[172, 2]` and decoding it
(with a trailing byte present) returns `(300, 2)`. -/
theorem claim7_witness :
    ([172, 2, 7] : List Nat).drop 0 = encodeVarint 300 ++ [7]
      ∧ read_varint [172, 2, 7] 0 = (300, (encodeVarint 300).length) := by
  have he : encodeVarint 300 = [172, 2] := by
    rw [encodeVarint]
    norm_num
    rw [encodeVarint]
    norm_num
  have hd : ([172, 2, 7] : List Nat).drop 0 = encodeVarint 300 ++ [7] := by
    rw [he]
    rfl
  exact ⟨hd, (claim7_varint_round_trip 300 [172, 2, 7] 0 [7] hd).1⟩

/-! ## Transition-log decoder (`parse_digital_channel_simple`,
saleae_parser_v2.py lines 58-124). -/

/-- The fixed 8-byte magic marker `<SALEAE>` as byte values. -/
def saleaeMagic : List Nat := [60, 83, 65, 76, 69, 65, 69, 62]

/-- The transition-decoding `while offset < len(data)` loop of
`parse_digital_channel_simple`: read a varint delta, accumulate the
timestamp, toggle the level, append `(timestamp, level)`, and stop at the
safety ceiling of 100000 transitions (append first, then break).  The fuel
counts remaining bytes: every iteration consumes at least one byte, so with
initial fuel `data.length - offset` the fuel-0 branch is reached only when
`offset` has passed the end of the buffer, exactly where the loop itself stops. -/
def parseLoopF (data : List Nat) : Nat → Nat → Nat → Nat → Nat → List (Nat × Nat)
  | 0, _, _, _, _ => []
  | fuel + 1, offset, timestamp, current_state, transition_count =>
    if offset < data.length then
      let dc := read_varint data offset
      if dc.2 = 0 then []
      else
        let timestamp' := timestamp + dc.1
        let state' := 1 - current_state
        if transition_count + 1 > 100000 then [(timestamp', state')]
        else (timestamp', state') ::
          parseLoopF data fuel (offset + dc.2) timestamp' state' (transition_count + 1)
    else []

/-- Result of parsing one channel file.  `invalidHeader` is the early return
with an empty channel after the "Invalid header" warning; `headerTooShort`
is the `struct.error` that `struct.unpack_from` raises when fewer than 20
bytes exist for the three header fields; `ok` carries the decoded
transition list. -/
inductive ChannelResult where
  | invalidHeader : ChannelResult
  | headerTooShort : ChannelResult
  | ok : List (Nat × Nat) → ChannelResult
deriving DecidableEq

/-- The transition list carried by a `ChannelResult`; the empty channel for
the failure outcomes (the Python invalid-header path returns a channel with
no transitions). -/
def ChannelResult.transitions : ChannelResult → List (Nat × Nat)
  | .ok ts => ts
  | _ => []

/-- Function `parse_digital_channel_simple` on the bytes of one capture file: check
the magic prefix, read the three 32-bit header fields (needs 20 bytes),
skip 20 further metadata bytes, then run the transition loop at offset 40. -/
def parse_digital_channel_simple (data : List Nat) : ChannelResult :=
  if data.take 8 = saleaeMagic then
    if data.length < 20 then ChannelResult.headerTooShort
    else ChannelResult.ok (parseLoopF data (data.length - 40) 40 0 0 0)
  else ChannelResult.invalidHeader

/-- On a list of bytes that all carry the continuation bit, the varint loop
consumes everything. -/
theorem readVarintAux_all_cont (l : List Nat) : ∀ (acc shift consumed : Nat),
    (∀ b ∈ l, b &&& 128 ≠ 0) →
    (readVarintAux l acc shift consumed).2 = consumed + l.length := by
  induction l with
  | nil => intro acc shift consumed _; rfl
  | cons b rest ihr =>
    intro acc shift consumed hall
    simp only [readVarintAux]
    rw [if_neg (hall b (by simp))]
    rw [ihr _ _ _ (fun x hx => hall x (by simp [hx]))]
    simp only [List.length_cons]
    omega

/-- The transition loop emits nothing once the offset has reached the end of
the buffer. -/
theorem parseLoopF_done (data : List Nat) (fuel offset ts st cnt : Nat)
    (h : ¬ offset < data.length) : parseLoopF data fuel offset ts st cnt = [] := by
  cases fuel with
  | zero => rfl
  | succ fuel => rw [parseLoopF, if_neg h]

/-- C1 (amended): when the bytes remaining at the current offset form an
incomplete varint (at least one byte, every byte with the continuation bit
set), the decoder does stop without error, but it first consumes those
trailing bytes and appends one more transition carrying the partially
decoded value — the timeline does not end at the last fully-decoded
transition. -/
theorem claim1_amended (data : List Nat) (fuel offset ts st cnt : Nat)
    (hfuel : data.length - offset ≤ fuel) (hoff : offset < data.length)
    (hcont : ∀ b ∈ data.drop offset, b &&& 128 ≠ 0) :
    parseLoopF data fuel offset ts st cnt
      = [(ts + (read_varint data offset).1, 1 - st)] := by
  cases fuel with
  | zero => omega
  | succ fuel =>
    have hc2 : (read_varint data offset).2 = data.length - offset := by
      unfold read_varint
      rw [readVarintAux_all_cont _ 0 0 0 hcont]
      simp [List.length_drop]
    simp only [parseLoopF]
    rw [if_pos hoff, hc2, if_neg (by omega)]
    by_cases hcnt : cnt + 1 > 100000
    · rw [if_pos hcnt]
    · rw [if_neg hcnt]
      rw [parseLoopF_done data fuel _ _ _ _ (by omega)]

/-- Witness for C1 (amended) on the buffer `[5, 128]` at offset 1: the
suffix `[128]` is an incomplete varint and the loop appends exactly one
further transition from it. -/
theorem claim1_amended_witness :
    (([5, 128] : List Nat).length - 1 ≤ 1) ∧ (1 < ([5, 128] : List Nat).length)
      ∧ (∀ b ∈ ([5, 128] : List Nat).drop 1, b &&& 128 ≠ 0)
      ∧ parseLoopF [5, 128] 1 1 7 1 0 = [(7 + (read_varint [5, 128] 1).1, 1 - 1)] :=
  ⟨by decide, by decide, by decide,
    claim1_amended [5, 128] 1 1 7 1 0 (by decide) (by decide) (by decide)⟩

/-- A capture whose final varint is incomplete: valid header, the 32 header
and metadata bytes, then a complete varint `5` followed by the lone
continuation byte `128`. -/
def truncatedCapture : List Nat :=
  saleaeMagic ++ List.replicate 32 0 ++ [5, 128]

/-- C1 counterexample: on `truncatedCapture` the decoder emits the
transition `(5, 1)` for the complete varint and then a second transition
`(5, 0)` decoded from the partially-consumed trailing byte, so the claim
"no transition is appended from the partially-consumed trailing bytes" is
false on the code. -/
theorem claim1_counterexample :
    parse_digital_channel_simple truncatedCapture = ChannelResult.ok [(5, 1), (5, 0)]
      ∧ decide ((parse_digital_channel_simple truncatedCapture).transitions
          = [(5, 1)]) = false := by
  decide

/-- C8: a buffer that does not begin with the 8-byte magic prefix makes the
transition-log decoder take the invalid-header failure path immediately: no
transitions are decoded from that buffer. -/
theorem claim8_magic (data : List Nat) (h : ¬ data.take 8 = saleaeMagic) :
    parse_digital_channel_simple data = ChannelResult.invalidHeader
      ∧ (parse_digital_channel_simple data).transitions = [] := by
  unfold parse_digital_channel_simple
  rw [if_neg h]
  exact ⟨rfl, rfl⟩

/-- Witness for C8 on the buffer `[0, 1, 2]`. -/
theorem claim8_witness :
    (¬ ([0, 1, 2] : List Nat).take 8 = saleaeMagic)
      ∧ parse_digital_channel_simple [0, 1, 2] = ChannelResult.invalidHeader :=
  ⟨by decide, (claim8_magic [0, 1, 2] (by decide)).1⟩

/-! ## Bus transaction reconstructor (`decode_spi_bytes`,
saleae_parser_v2.py lines 127-193). -/

/-- The loop of `DigitalChannel.get_state_at` (saleae_parser_v2.py lines
23-30): walk the transitions in order, keeping the state of the last
transition with timestamp ≤ t; default 0 before any transition. -/
def getStateAtAux : List (Nat × Nat) → Nat → Nat → Nat
  | [], _, state => state
  | (ts, st) :: rest, t, state =>
    if ts > t then state else getStateAtAux rest t st

/-- Method `get_state_at(timestamp)` on the transition list of a channel. -/
def get_state_at (transitions : List (Nat × Nat)) (timestamp : Nat) : Nat :=
  getStateAtAux transitions timestamp 0

/-- The CS-window extraction loop of `decode_spi_bytes` (lines 136-147):
`cs_state` starts at 1 and `cs_start` at None; a falling transition while
`cs_state = 1` records the start, a rising transition while `cs_state = 0`
appends `(cs_start, ts)` — but only under the Python truthiness test
`if cs_start:`, which rejects both None and a recorded start of 0. -/
def csPeriodsV2Aux : List (Nat × Nat) → Nat → Option Nat → List (Nat × Nat)
  | [], _, _ => []
  | (ts, st) :: rest, cs_state, cs_start =>
    if st = 0 ∧ cs_state = 1 then csPeriodsV2Aux rest 0 (some ts)
    else if st = 1 ∧ cs_state = 0 then
      match cs_start with
      | some s =>
        if s = 0 then csPeriodsV2Aux rest 1 cs_start
        else (s, ts) :: csPeriodsV2Aux rest 1 cs_start
      | none => csPeriodsV2Aux rest 1 cs_start
    else csPeriodsV2Aux rest cs_state cs_start

/-- The list `cs_low_periods` as computed at the top of `decode_spi_bytes`. -/
def cs_low_periods (cs : List (Nat × Nat)) : List (Nat × Nat) :=
  csPeriodsV2Aux cs 1 none

/-- The per-window byte loop (lines 162-183): sample MOSI and MISO at each
clock edge, shift the bits in MSB first, emit a
`(timestamp, mosi_byte, miso_byte)` triple at every 8th bit and reset the
accumulators; bits that do not complete a byte are dropped at the end. -/
def spiWindowBytes : List Nat → List (Nat × Nat) → List (Nat × Nat) → Nat → Nat → Nat →
    List (Nat × Nat × Nat)
  | [], _, _, _, _, _ => []
  | edge :: rest, mosi, miso, mosi_byte, miso_byte, bit_count =>
    let mb := (mosi_byte <<< 1) ||| get_state_at mosi edge
    let sb := (miso_byte <<< 1) ||| get_state_at miso edge
    if bit_count + 1 = 8 then (edge, mb, sb) :: spiWindowBytes rest mosi miso 0 0 0
    else spiWindowBytes rest mosi miso mb sb (bit_count + 1)

/-- The sampling instants of the window `[s, e]`: clock-timeline entries
with level 1 and timestamp inside the window, in timeline order (lines
154-155). -/
def windowClockEdges (sclk : List (Nat × Nat)) (s e : Nat) : List Nat :=
  (sclk.filter (fun p => decide (s ≤ p.1 ∧ p.1 ≤ e ∧ p.2 = 1))).map Prod.fst

/-- The contribution of one window: nothing when fewer than 8 clock edges lie
inside (lines 157-158), otherwise the decoded byte triples. -/
def windowBytesFor (mosi miso sclk : List (Nat × Nat)) (s e : Nat) :
    List (Nat × Nat × Nat) :=
  let edges := windowClockEdges sclk s e
  if edges.length < 8 then [] else spiWindowBytes edges mosi miso 0 0 0

/-- The per-window `for` loop, extending `transactions` window by window
(lines 152-191). -/
def decodeWindows (mosi miso sclk : List (Nat × Nat)) :
    List (Nat × Nat) → List (Nat × Nat × Nat)
  | [] => []
  | (s, e) :: rest =>
    windowBytesFor mosi miso sclk s e ++ decodeWindows mosi miso sclk rest

/-- Function `decode_spi_bytes(mosi, miso, sclk, cs)`: extract the CS-low windows,
keep only the first 20 (the `[:20]` slice at line 152), decode each, and
concatenate in window order. -/
def decode_spi_bytes (mosi miso sclk cs : List (Nat × Nat)) : List (Nat × Nat × Nat) :=
  decodeWindows mosi miso sclk ((cs_low_periods cs).take 20)

/-! ## parse_saleae.py `SPIDecoder.decode` window extraction (lines
139-153). -/

/-- The `Transition` dataclass of parse_saleae.py. -/
structure Transition where
  timestamp : Nat
  state : Nat
deriving DecidableEq

/-- The CS-window extraction loop of `SPIDecoder.decode`: the same state
machine as the v2 loop except that the emission guard is
`if cs_start is not None:`, so a window starting at timestamp 0 is emitted
as well. -/
def csActivePeriodsAux : List Transition → Nat → Option Nat → List (Nat × Nat)
  | [], _, _ => []
  | t :: rest, cs_state, cs_start =>
    if t.state = 0 ∧ cs_state = 1 then csActivePeriodsAux rest 0 (some t.timestamp)
    else if t.state = 1 ∧ cs_state = 0 then
      match cs_start with
      | some s => (s, t.timestamp) :: csActivePeriodsAux rest 1 cs_start
      | none => csActivePeriodsAux rest 1 cs_start
    else csActivePeriodsAux rest cs_state cs_start

/-- The list `cs_active_periods` as computed by `SPIDecoder.decode`, starting from
the assumed inactive level 1 and no recorded start. -/
def cs_active_periods (cs : List Transition) : List (Nat × Nat) :=
  csActivePeriodsAux cs 1 none

/-- C4: processed in order from the assumed inactive level 1, a falling
transition while not inside a window opens one at that timestamp; a rising
transition while inside closes it and emits the pair; a falling transition
while already inside, or a rising transition while outside, is ignored; and
the transitions [(10,0),(50,1),(100,0),(140,1)] yield exactly the windows
[(10,50),(100,140)]. -/
theorem claim4_window_pairing :
    (∀ (ts : Nat) (rest : List Transition) (o : Option Nat),
        csActivePeriodsAux (⟨ts, 0⟩ :: rest) 1 o = csActivePeriodsAux rest 0 (some ts))
      ∧ (∀ (ts s : Nat) (rest : List Transition),
        csActivePeriodsAux (⟨ts, 1⟩ :: rest) 0 (some s)
          = (s, ts) :: csActivePeriodsAux rest 1 (some s))
      ∧ (∀ (ts : Nat) (rest : List Transition) (o : Option Nat),
        csActivePeriodsAux (⟨ts, 0⟩ :: rest) 0 o = csActivePeriodsAux rest 0 o)
      ∧ (∀ (ts : Nat) (rest : List Transition) (o : Option Nat),
        csActivePeriodsAux (⟨ts, 1⟩ :: rest) 1 o = csActivePeriodsAux rest 1 o)
      ∧ cs_active_periods [⟨10, 0⟩, ⟨50, 1⟩, ⟨100, 0⟩, ⟨140, 1⟩]
          = [(10, 50), (100, 140)] := by
  refine ⟨?_, ?_, ?_, ?_, by decide⟩
  · intro ts rest o
    simp [csActivePeriodsAux]
  · intro ts s rest
    simp [csActivePeriodsAux]
  · intro ts rest o
    simp [csActivePeriodsAux]
  · intro ts rest o
    simp [csActivePeriodsAux]

/-- MSB-first accumulation of sampled bits, as the `(byte << 1) | bit`
shifts of the per-window loop produce it. -/
def msbFold (bits : List Nat) : Nat :=
  bits.foldl (fun a b => (a <<< 1) ||| b) 0

/-- MOSI timeline for the C5 example: `level_at` sampled at times 1..8
gives the bits 1,0,1,1,0,1,0,0. -/
def mosiByteExample : List (Nat × Nat) :=
  [(1, 1), (2, 0), (3, 1), (5, 0), (6, 1), (7, 0)]

/-- Clock timeline with level-1 transitions at times 1..8. -/
def sclkByteExample : List (Nat × Nat) :=
  (List.range 8).map (fun j => (j + 1, 1))

/-- C5: within one window the sampled bits are shifted in MSB first on each
level-1 clock edge; every 8 sampled edges one transaction carrying both
accumulated bytes is emitted (timestamped at the 8th edge) and the
accumulators reset; trailing bits that do not complete a byte are
discarded; and 8 edges whose sampled data-out bits are 1,0,1,1,0,1,0,0
yield exactly one transaction with data-out byte 0xB4 = 180. -/
theorem claim5_byte_framing :
    (∀ (mosi miso : List (Nat × Nat)) (e1 e2 e3 e4 e5 e6 e7 e8 : Nat)
        (rest : List Nat),
      spiWindowBytes (e1 :: e2 :: e3 :: e4 :: e5 :: e6 :: e7 :: e8 :: rest) mosi miso 0 0 0
        = (e8,
            msbFold [get_state_at mosi e1, get_state_at mosi e2, get_state_at mosi e3,
              get_state_at mosi e4, get_state_at mosi e5, get_state_at mosi e6,
              get_state_at mosi e7, get_state_at mosi e8],
            msbFold [get_state_at miso e1, get_state_at miso e2, get_state_at miso e3,
              get_state_at miso e4, get_state_at miso e5, get_state_at miso e6,
              get_state_at miso e7, get_state_at miso e8])
          :: spiWindowBytes rest mosi miso 0 0 0)
      ∧ (∀ (mosi miso : List (Nat × Nat)) (edges : List Nat) (mb sb bc : Nat),
        edges.length + bc < 8 → spiWindowBytes edges mosi miso mb sb bc = [])
      ∧ decode_spi_bytes mosiByteExample [] sclkByteExample [(1, 0), (9, 1)]
          = [(8, 180, 0)] := by
  refine ⟨?_, ?_, by decide⟩
  · intro mosi miso e1 e2 e3 e4 e5 e6 e7 e8 rest
    rfl
  · intro mosi miso edges
    induction edges with
    | nil => intro mb sb bc _; rfl
    | cons e rest ih =>
      intro mb sb bc h
      simp only [List.length_cons] at h
      simp only [spiWindowBytes]
      rw [if_neg (by omega)]
      exact ih _ _ _ (by omega)

/-- Witness for the discarded-trailing-bits conjunct of C5: two edges never
complete a byte. -/
theorem claim5_witness :
    (([1, 2] : List Nat).length + 0 < 8)
      ∧ spiWindowBytes [1, 2] [] [] 0 0 0 = [] :=
  ⟨by decide, claim5_byte_framing.2.1 [] [] [1, 2] 0 0 0 (by decide)⟩

/-- C10: the closing of a window whose recorded start is 0 emits nothing
(the truthiness test `if cs_start:` fails on 0); a window with nonzero
start is emitted normally; no emitted window ever has start 0; and
concretely a capture whose select falls at time 0 contributes no bus
transactions while the same window shifted to start 1 yields its byte. -/
theorem claim10_zero_start_window :
    (∀ (ts : Nat) (rest : List (Nat × Nat)),
        csPeriodsV2Aux ((ts, 1) :: rest) 0 (some 0) = csPeriodsV2Aux rest 1 (some 0))
      ∧ (∀ (s ts : Nat) (rest : List (Nat × Nat)), s ≠ 0 →
        csPeriodsV2Aux ((ts, 1) :: rest) 0 (some s)
          = (s, ts) :: csPeriodsV2Aux rest 1 (some s))
      ∧ (∀ (cs : List (Nat × Nat)) (st : Nat) (o : Option Nat) (p : Nat × Nat),
        p ∈ csPeriodsV2Aux cs st o → p.1 ≠ 0)
      ∧ decode_spi_bytes [] [] sclkByteExample [(0, 0), (20, 1)] = []
      ∧ decode_spi_bytes [] [] sclkByteExample [(1, 0), (20, 1)] = [(8, 0, 0)] := by
  refine ⟨?_, ?_, ?_, by decide, by decide⟩
  · intro ts rest
    simp [csPeriodsV2Aux]
  · intro s ts rest hs
    simp [csPeriodsV2Aux, hs]
  · intro cs
    induction cs with
    | nil =>
      intro st o p hp
      simp [csPeriodsV2Aux] at hp
    | cons hd rest ih =>
      intro st o p hp
      obtain ⟨ts, stt⟩ := hd
      simp only [csPeriodsV2Aux] at hp
      split at hp
      · exact ih _ _ _ hp
      · split at hp
        · split at hp
          · split at hp
            · exact ih _ _ _ hp
            · rename_i hs
              rcases List.mem_cons.mp hp with h1 | h2
              · rw [h1]
                simpa using hs
              · exact ih _ _ _ h2
          · exact ih _ _ _ hp
        · exact ih _ _ _ hp

/-- Witness for C10 on a window recorded at start 3 and closed at 5, and a
member of an emitted period list. -/
theorem claim10_witness :
    ((3 : Nat) ≠ 0)
      ∧ csPeriodsV2Aux [(5, 1)] 0 (some 3) = (3, 5) :: csPeriodsV2Aux [] 1 (some 3)
      ∧ ((3, 5) ∈ csPeriodsV2Aux [(3, 0), (5, 1)] 1 none)
      ∧ ((3, 5) : Nat × Nat).1 ≠ 0 :=
  ⟨by decide, claim10_zero_start_window.2.1 3 5 [] (by decide), by decide,
    claim10_zero_start_window.2.2.1 [(3, 0), (5, 1)] 1 none (3, 5) (by decide)⟩

/-- Every window in the processed list contributes its decoded bytes as a
contiguous block, in list order. -/
theorem decodeWindows_mem (mosi miso sclk : List (Nat × Nat)) :
    ∀ (ps : List (Nat × Nat)) (s e : Nat), (s, e) ∈ ps →
    ∃ l r, decodeWindows mosi miso sclk ps
      = l ++ windowBytesFor mosi miso sclk s e ++ r := by
  intro ps
  induction ps with
  | nil =>
    intro s e h
    simp at h
  | cons hd rest ih =>
    intro s e h
    rcases List.mem_cons.mp h with h1 | h2
    · refine ⟨[], decodeWindows mosi miso sclk rest, ?_⟩
      rw [← h1]
      simp [decodeWindows]
    · obtain ⟨l, r, hr⟩ := ih s e h2
      obtain ⟨a, b⟩ := hd
      refine ⟨windowBytesFor mosi miso sclk a b ++ l, r, ?_⟩
      simp [decodeWindows, hr]

/-- C2 (amended): every select-active window among the first 20 extracted
windows contributes its decoded bytes to the output as one contiguous
block, in window order with intra-window order preserved; windows beyond
the 20th are not processed (the `[:20]` slice). -/
theorem claim2_amended (mosi miso sclk cs : List (Nat × Nat)) (s e : Nat)
    (h : (s, e) ∈ (cs_low_periods cs).take 20) :
    ∃ l r, decode_spi_bytes mosi miso sclk cs
      = l ++ windowBytesFor mosi miso sclk s e ++ r :=
  decodeWindows_mem mosi miso sclk ((cs_low_periods cs).take 20) s e h

/-- Witness for C2 (amended) on a single-window capture. -/
theorem claim2_amended_witness :
    ((1, 5) ∈ (cs_low_periods [(1, 0), (5, 1)]).take 20)
      ∧ ∃ l r, decode_spi_bytes [] [] [] [(1, 0), (5, 1)]
          = l ++ windowBytesFor [] [] [] 1 5 ++ r :=
  ⟨by decide, claim2_amended [] [] [] [(1, 0), (5, 1)] 1 5 (by decide)⟩

/-- A select timeline with 21 complete windows: window i spans
[20i+1, 20i+18]. -/
def cs21Windows : List (Nat × Nat) :=
  ((List.range 21).map (fun i => [(20 * i + 1, 0), (20 * i + 18, 1)])).flatten

/-- A clock timeline with 8 level-1 transitions inside each of the 21
windows, at times 20i+2 .. 20i+9. -/
def sclk21Windows : List (Nat × Nat) :=
  ((List.range 21).map (fun i => (List.range 8).map (fun j => (20 * i + 2 + j, 1)))).flatten

/-- C2 counterexample: the 21st window (401, 418) is extracted and would
contribute the transaction (409, 0, 0), but the `[:20]` slice
drops it, so its bytes are missing from the output — "no window within the
input is omitted from processing" is false on the code. -/
theorem claim2_counterexample :
    ((401, 418) ∈ cs_low_periods cs21Windows)
      ∧ windowBytesFor [] [] sclk21Windows 401 418 = [(409, 0, 0)]
      ∧ decode_spi_bytes [] [] sclk21Windows cs21Windows
          = (List.range 20).map (fun i => (20 * i + 9, 0, 0))
      ∧ (decode_spi_bytes [] [] sclk21Windows cs21Windows).contains (409, 0, 0)
          = false := by
  decide

/-! ## Protocol interpreter (`extract_packets`, parse_spi_csv.py lines
103-200). -/

/-- The `SPITransaction` dataclass of parse_spi_csv.py. -/
structure SPITransaction where
  time : ℚ
  mosi : Nat
  miso : Nat
deriving DecidableEq, Inhabited

/-- Packet direction: the `direction` string field, TX or RX. -/
inductive Direction where
  | TX : Direction
  | RX : Direction
deriving DecidableEq

/-- The `Packet` dataclass of parse_spi_csv.py together with the CRC flag
computed in the RX branch (the Python dataclass stores only rssi and lqi;
`crc_ok` is a local that the code derives at line 166 and prints — it is
carried here so the derived value is observable). -/
structure Packet where
  time : ℚ
  direction : Direction
  data : List Nat
  rssi : Option ℚ
  lqi : Option Nat
  crcOk : Option Bool
deriving DecidableEq

/-- The CC110L register table of parse_spi_csv.py lines 39-56 (addresses
0x00-0x2E and 0x30-0x3B). -/
def CC110L_REGISTERS : List (Nat × String) :=
  [(0x00, "IOCFG2"), (0x01, "IOCFG1"), (0x02, "IOCFG0"),
   (0x03, "FIFOTHR"), (0x04, "SYNC1"), (0x05, "SYNC0"),
   (0x06, "PKTLEN"), (0x07, "PKTCTRL1"), (0x08, "PKTCTRL0"),
   (0x09, "ADDR"), (0x0A, "CHANNR"), (0x0B, "FSCTRL1"),
   (0x0C, "FSCTRL0"), (0x0D, "FREQ2"), (0x0E, "FREQ1"), (0x0F, "FREQ0"),
   (0x10, "MDMCFG4"), (0x11, "MDMCFG3"), (0x12, "MDMCFG2"), (0x13, "MDMCFG1"),
   (0x14, "MDMCFG0"), (0x15, "DEVIATN"), (0x16, "MCSM2"), (0x17, "MCSM1"),
   (0x18, "MCSM0"), (0x19, "FOCCFG"), (0x1A, "BSCFG"), (0x1B, "AGCCTRL2"),
   (0x1C, "AGCCTRL1"), (0x1D, "AGCCTRL0"), (0x1E, "WOREVT1"), (0x1F, "WOREVT0"),
   (0x20, "WORCTRL"), (0x21, "FREND1"), (0x22, "FREND0"), (0x23, "FSCAL3"),
   (0x24, "FSCAL2"), (0x25, "FSCAL1"), (0x26, "FSCAL0"), (0x27, "RCCTRL1"),
   (0x28, "RCCTRL0"), (0x29, "FSTEST"), (0x2A, "PTEST"), (0x2B, "AGCTEST"),
   (0x2C, "TEST2"), (0x2D, "TEST1"), (0x2E, "TEST0"),
   (0x30, "PARTNUM"), (0x31, "VERSION"), (0x32, "FREQEST"), (0x33, "LQI"),
   (0x34, "RSSI"), (0x35, "MARCSTATE"), (0x36, "WORTIME1"), (0x37, "WORTIME0"),
   (0x38, "PKTSTATUS"), (0x39, "VCO_VC_DAC"), (0x3A, "TXBYTES"), (0x3B, "RXBYTES")]

/-- The CC110L command-strobe table of parse_spi_csv.py lines 59-64
(0x30-0x3D without 0x37). -/
def CC110L_STROBES : List (Nat × String) :=
  [(0x30, "SRES"), (0x31, "SFSTXON"), (0x32, "SXOFF"), (0x33, "SCAL"),
   (0x34, "SRX"), (0x35, "STX"), (0x36, "SIDLE"), (0x38, "SWOR"),
   (0x39, "SPWD"), (0x3A, "SFRX"), (0x3B, "SFTX"), (0x3C, "SWORRST"),
   (0x3D, "SNOP")]

/-- How the if/elif chain of `extract_packets` classifies a leading command
byte (lines 113, 137, 179, 193, in evaluation order). -/
inductive CmdClass where
  | txFifo : CmdClass
  | rxFifo : CmdClass
  | register : CmdClass
  | strobe : CmdClass
  | unknown : CmdClass
deriving DecidableEq

/-- The branch conditions of `extract_packets`, in evaluation order:
TX FIFO (0x7F or 0x3F), RX FIFO (0xFF or 0xBF), then the register test on
the low 6 bits, then the strobe test on the whole byte. -/
def classifyCmd (cmd : Nat) : CmdClass :=
  if cmd = 0x7F ∨ cmd = 0x3F then CmdClass.txFifo
  else if cmd = 0xFF ∨ cmd = 0xBF then CmdClass.rxFifo
  else if (cmd &&& 0x3F) ∈ CC110L_REGISTERS.map Prod.fst then CmdClass.register
  else if cmd ∈ CC110L_STROBES.map Prod.fst then CmdClass.strobe
  else CmdClass.unknown

/-- The payload loop `for _ in range(n): if i+1 < len(transactions):
i += 1; packet_data.append(f(transactions[i]))` (lines 124-127 and
148-151): returns the collected bytes and the final index. -/
def consumePayload (txs : List SPITransaction) (f : SPITransaction → Nat) :
    Nat → Nat → List Nat × Nat
  | 0, i => ([], i)
  | n + 1, i =>
    if i + 1 < txs.length then
      let b := f (txs.getD (i + 1) default)
      let pr := consumePayload txs f n (i + 1)
      (b :: pr.1, pr.2)
    else ([], i)

/-- Lines 157-161: twos-complement adjustment of the raw RSSI byte and
conversion to dBm, `rssi = (rssi_raw / 2) - 74`. -/
def rssiFromRaw (raw : Nat) : ℚ :=
  ((if raw > 127 then (raw : ℤ) - 256 else (raw : ℤ)) : ℚ) / 2 - 74

/-- The `while i < len(transactions)` loop of `extract_packets`.  The fuel
counts the remaining transactions: every branch advances `i` by at least
one, so with initial fuel `transactions.length` the fuel-0 branch is only
reached once `i` has passed the end, where the loop itself stops.  The result is
`none` when the Python function raises: in the RX branch with fewer than
two collected bytes, `rssi` stays None and the diagnostic print at lines
175-176 formats it with `:.1f`, a TypeError that aborts the whole call. -/
def extractAux (txs : List SPITransaction) : Nat → Nat → Option (List Packet)
  | 0, _ => some []
  | fuel + 1, i =>
    if i < txs.length then
      let trans := txs.getD i default
      match classifyCmd trans.mosi with
      | CmdClass.txFifo =>
        if i + 1 < txs.length then
          let len0 := (txs.getD (i + 1) default).mosi
          let pr := consumePayload txs (fun t => t.mosi) (Nat.min len0 64) (i + 1)
          match extractAux txs fuel (pr.2 + 1) with
          | none => none
          | some ps =>
            some ({ time := trans.time, direction := Direction.TX,
                    data := len0 :: pr.1,
                    rssi := none, lqi := none, crcOk := none } :: ps)
        else extractAux txs fuel (i + 1)
      | CmdClass.rxFifo =>
        if i + 1 < txs.length then
          let len0 := (txs.getD (i + 1) default).miso
          let pr := consumePayload txs (fun t => t.miso) (Nat.min len0 64) (i + 1)
          let pdata := len0 :: pr.1
          if 2 ≤ pdata.length then
            match extractAux txs fuel (pr.2 + 1) with
            | none => none
            | some ps =>
              some ({ time := trans.time, direction := Direction.RX,
                      data := pdata,
                      rssi := some (rssiFromRaw (pdata.getD (pdata.length - 2) 0)),
                      lqi := some ((pdata.getD (pdata.length - 1) 0) &&& 127),
                      crcOk := some (decide
                        ((pdata.getD (pdata.length - 1) 0) &&& 128 ≠ 0)) } :: ps)
          else none
        else extractAux txs fuel (i + 1)
      | CmdClass.register =>
        if i + 1 < txs.length then extractAux txs fuel (i + 2)
        else extractAux txs fuel (i + 1)
      | CmdClass.strobe => extractAux txs fuel (i + 1)
      | CmdClass.unknown => extractAux txs fuel (i + 1)
    else some []

/-- Function `extract_packets(transactions)`, with `none` for the raising runs. -/
def extract_packets (txs : List SPITransaction) : Option (List Packet) :=
  extractAux txs txs.length 0

/-- Every byte 0x30-0x3B (48-59) is in the register table, and the register
test precedes the strobe test, so those bytes classify as register
accesses. -/
theorem classify_register_of_range :
    ∀ cmd : Nat, 48 ≤ cmd → cmd ≤ 59 → classifyCmd cmd = CmdClass.register := by
  have hb : ∀ cmd, cmd < 60 → 48 ≤ cmd → classifyCmd cmd = CmdClass.register := by decide
  exact fun cmd h1 h2 => hb cmd (by omega) h1

/-- The strobe branch is reachable exactly for SWORRST (0x3C = 60) and SNOP
(0x3D = 61): every other strobe value is shadowed by an earlier branch. -/
theorem classify_strobe_iff :
    ∀ cmd : Nat, classifyCmd cmd = CmdClass.strobe ↔ (cmd = 60 ∨ cmd = 61) := by
  have hb2 : ∀ cmd, cmd < 62 →
      (classifyCmd cmd = CmdClass.strobe ↔ (cmd = 60 ∨ cmd = 61)) := by decide
  intro cmd
  by_cases hlt : cmd < 62
  · exact hb2 cmd hlt
  · constructor
    · intro h
      exfalso
      have hmem : cmd ∉ CC110L_STROBES.map Prod.fst := by
        intro hmem
        simp only [CC110L_STROBES, List.map_cons, List.map_nil, List.mem_cons,
          List.not_mem_nil, or_false] at hmem
        omega
      unfold classifyCmd at h
      split_ifs at h
    · intro h
      exact absurd (show cmd < 62 by omega) hlt

/-- C9: because the register test `(cmd & 0x3F) in CC110L_REGISTERS` runs
before the strobe test and the register table contains 0x30-0x3B, every
leading byte in 0x30-0x3B (48-59) classifies as a register access and, when
a following transaction exists, consumes it (the interpreter jumps from i
to i+2); the strobe branch is reachable only for 0x3C (SWORRST) and 0x3D
(SNOP), and consumes no extra transaction. -/
theorem claim9_strobe_shadowing :
    (∀ cmd : Nat, 48 ≤ cmd → cmd ≤ 59 → classifyCmd cmd = CmdClass.register)
      ∧ (∀ cmd : Nat, classifyCmd cmd = CmdClass.strobe ↔ (cmd = 60 ∨ cmd = 61))
      ∧ (∀ (txs : List SPITransaction) (fuel i : Nat), i + 1 < txs.length →
          48 ≤ (txs.getD i default).mosi → (txs.getD i default).mosi ≤ 59 →
          extractAux txs (fuel + 1) i = extractAux txs fuel (i + 2))
      ∧ (∀ (txs : List SPITransaction) (fuel i : Nat), i < txs.length →
          ((txs.getD i default).mosi = 60 ∨ (txs.getD i default).mosi = 61) →
          extractAux txs (fuel + 1) i = extractAux txs fuel (i + 1)) := by
  refine ⟨classify_register_of_range, classify_strobe_iff, ?_, ?_⟩
  · intro txs fuel i hi1 h1 h2
    have hcl := classify_register_of_range _ h1 h2
    simp only [extractAux]
    rw [if_pos (show i < txs.length by omega)]
    simp only [hcl]
    rw [if_pos hi1]
  · intro txs fuel i hi h
    have hcl := (classify_strobe_iff _).mpr h
    simp only [extractAux]
    rw [if_pos hi]
    simp only [hcl]

/-- Witness for C9: 0x34 (= 52, the SRX strobe value) classifies as a
register access; on a concrete transaction list a leading 52 consumes the
following transaction while a leading 61 does not. -/
theorem claim9_witness :
    classifyCmd 52 = CmdClass.register
      ∧ (classifyCmd 60 = CmdClass.strobe ↔ (60 = 60 ∨ 60 = 61))
      ∧ extractAux [⟨0, 52, 0⟩, ⟨1, 7, 7⟩, ⟨2, 61, 0⟩] 3 0
          = extractAux [⟨0, 52, 0⟩, ⟨1, 7, 7⟩, ⟨2, 61, 0⟩] 2 2
      ∧ extractAux [⟨0, 52, 0⟩, ⟨1, 7, 7⟩, ⟨2, 61, 0⟩] 1 2
          = extractAux [⟨0, 52, 0⟩, ⟨1, 7, 7⟩, ⟨2, 61, 0⟩] 0 3 :=
  ⟨claim9_strobe_shadowing.1 52 (by decide) (by decide),
   claim9_strobe_shadowing.2.1 60,
   claim9_strobe_shadowing.2.2.1 [⟨0, 52, 0⟩, ⟨1, 7, 7⟩, ⟨2, 61, 0⟩] 2 0
     (by decide) (by decide) (by decide),
   claim9_strobe_shadowing.2.2.2 [⟨0, 52, 0⟩, ⟨1, 7, 7⟩, ⟨2, 61, 0⟩] 0 2
     (by decide) (by decide)⟩

/-- Every RX packet in a successfully returned packet list has at least two
data bytes (the length byte plus at least one payload byte) and carries the
derived quality fields computed from its own last two data bytes. -/
theorem extractAux_rx_fields (txs : List SPITransaction) :
    ∀ (fuel i : Nat) (res : List Packet), extractAux txs fuel i = some res →
    ∀ p ∈ res, p.direction = Direction.RX →
    2 ≤ p.data.length
      ∧ p.rssi = some (rssiFromRaw (p.data.getD (p.data.length - 2) 0))
      ∧ p.lqi = some ((p.data.getD (p.data.length - 1) 0) &&& 127)
      ∧ p.crcOk = some (decide ((p.data.getD (p.data.length - 1) 0) &&& 128 ≠ 0)) := by
  intro fuel
  induction fuel with
  | zero =>
    intro i res h p hp hdir
    simp only [extractAux] at h
    obtain rfl := Option.some.inj h
    simp at hp
  | succ fuel ih =>
    intro i res h p hp hdir
    simp only [extractAux] at h
    by_cases hi : i < txs.length
    · rw [if_pos hi] at h
      split at h
      · -- TX FIFO branch
        split at h
        · split at h
          · exact absurd h (by simp)
          · rename_i ps hps
            obtain rfl := Option.some.inj h
            rcases List.mem_cons.mp hp with h1 | h2
            · rw [h1] at hdir
              exact absurd hdir (by simp)
            · exact ih _ _ hps p h2 hdir
        · exact ih _ _ h p hp hdir
      · -- RX FIFO branch
        split at h
        · split at h
          · rename_i hlen
            split at h
            · exact absurd h (by simp)
            · rename_i ps hps
              obtain rfl := Option.some.inj h
              rcases List.mem_cons.mp hp with h1 | h2
              · rw [h1]
                exact ⟨hlen, rfl, rfl, rfl⟩
              · exact ih _ _ hps p h2 hdir
          · exact absurd h (by simp)
        · exact ih _ _ h p hp hdir
      · -- register branch
        split at h
        · exact ih _ _ h p hp hdir
        · exact ih _ _ h p hp hdir
      · exact ih _ _ h p hp hdir
      · exact ih _ _ h p hp hdir
    · rw [if_neg hi] at h
      obtain rfl := Option.some.inj h
      simp at hp

/-- An inbound buffer burst (0xBF = 191) with declared length 2 and the two
payload bytes 0x10 and 0x9C. -/
def rxBurstExample : List SPITransaction :=
  [⟨0, 191, 0⟩, ⟨1, 0, 2⟩, ⟨2, 0, 16⟩, ⟨3, 0, 156⟩]

/-- The packet the interpreter emits for `rxBurstExample`:
rssi = 16/2 - 74 = -66 dBm, lqi = 0x9C & 0x7F = 28, crc flag set. -/
def rxPacketExample : Packet :=
  { time := 0, direction := Direction.RX, data := [2, 16, 156],
    rssi := some (-66), lqi := some 28, crcOk := some true }

/-- C3 (amended): in every run of the interpreter that returns, every
emitted inbound packet has rssi, lqi and the crc flag populated and its
data holds the length byte plus at least one payload byte: the populating
test `len(packet_data) >= 2` counts the length byte itself, so a single
payload byte already populates the fields; and when an inbound burst
collects no payload byte at all the fields stay unset but the diagnostic
print then formats `rssi = None` with `:.1f` and raises, so no packet list
is returned (modelled as `none`). -/
theorem claim3_amended :
    (∀ (txs : List SPITransaction) (res : List Packet) (p : Packet),
        extract_packets txs = some res → p ∈ res → p.direction = Direction.RX →
        (p.rssi.isSome ∧ p.lqi.isSome ∧ p.crcOk.isSome) ∧ 2 ≤ p.data.length)
      ∧ extract_packets [⟨0, 191, 0⟩, ⟨1, 0, 0⟩] = none := by
  constructor
  · intro txs res p h hp hdir
    obtain ⟨h1, h2, h3, h4⟩ := extractAux_rx_fields txs txs.length 0 res h p hp hdir
    exact ⟨⟨by simp [h2], by simp [h3], by simp [h4]⟩, h1⟩
  · decide

/-- Witness for C3 (amended) on the two-payload-byte burst. -/
theorem claim3_amended_witness :
    extract_packets rxBurstExample = some [rxPacketExample]
      ∧ ((rxPacketExample.rssi.isSome ∧ rxPacketExample.lqi.isSome
          ∧ rxPacketExample.crcOk.isSome) ∧ 2 ≤ rxPacketExample.data.length) :=
  ⟨by with_unfolding_all decide,
   claim3_amended.1 rxBurstExample [rxPacketExample] rxPacketExample
     (by with_unfolding_all decide) (by simp) rfl⟩

/-- C3 counterexample: an inbound burst with declared length 1 and exactly
one payload byte (0x9C).  `packet_data = [1, 0x9C]` already passes the
`>= 2` test, so rssi, lqi and the crc flag are all populated — with the
length byte itself serving as the RSSI byte (rssi = 1/2 - 74 = -147/2) —
although fewer than two payload bytes were consumed, where the claim says
all three derived fields are left unset. -/
theorem claim3_counterexample :
    extract_packets [⟨0, 191, 0⟩, ⟨1, 0, 1⟩, ⟨2, 0, 156⟩]
      = some [{ time := 0, direction := Direction.RX, data := [1, 156],
                rssi := some (-147 / 2), lqi := some 28, crcOk := some true }] := by
  with_unfolding_all decide

/-- C6: for every inbound packet of a completed run, the second-to-last
consumed byte r is interpreted as a twos-complement signed 8-bit value
(r > 127 is reduced by 256) and converted to dBm as raw/2 - 74, the last
low 7 bits of the last byte become the LQI and its high bit the CRC flag; the
trailing pair [0x10, 0x9C] concretely yields rssi = -66 dBm, lqi = 28,
crc = true. -/
theorem claim6_rssi_lqi :
    (∀ (txs : List SPITransaction) (res : List Packet) (p : Packet),
        extract_packets txs = some res → p ∈ res → p.direction = Direction.RX →
        p.rssi = some (((if 127 < p.data.getD (p.data.length - 2) 0
              then (p.data.getD (p.data.length - 2) 0 : ℤ) - 256
              else (p.data.getD (p.data.length - 2) 0 : ℤ)) : ℚ) / 2 - 74)
          ∧ p.lqi = some ((p.data.getD (p.data.length - 1) 0) &&& 127)
          ∧ p.crcOk = some (decide ((p.data.getD (p.data.length - 1) 0) &&& 128 ≠ 0)))
      ∧ extract_packets rxBurstExample = some [rxPacketExample]
      ∧ rxPacketExample.rssi = some (-66)
      ∧ rxPacketExample.lqi = some 28
      ∧ rxPacketExample.crcOk = some true := by
  refine ⟨?_, by with_unfolding_all decide, rfl, rfl, rfl⟩
  intro txs res p h hp hdir
  obtain ⟨h1, h2, h3, h4⟩ := extractAux_rx_fields txs txs.length 0 res h p hp hdir
  exact ⟨by rw [h2]; rfl, h3, h4⟩

/-- Witness for C6 on the concrete burst. -/
theorem claim6_witness :
    extract_packets rxBurstExample = some [rxPacketExample]
      ∧ rxPacketExample.rssi
          = some (((if 127 < rxPacketExample.data.getD (rxPacketExample.data.length - 2) 0
              then (rxPacketExample.data.getD (rxPacketExample.data.length - 2) 0 : ℤ) - 256
              else (rxPacketExample.data.getD (rxPacketExample.data.length - 2) 0 : ℤ)) : ℚ)
              / 2 - 74) :=
  ⟨by with_unfolding_all decide,
   (claim6_rssi_lqi.1 rxBurstExample [rxPacketExample] rxPacketExample
     (by with_unfolding_all decide) (by simp) rfl).1⟩
